import Mathlib

/-!
Verification development for the retrieval subsystem of the
AI-Powered Requirements Analysis Platform: token-based chunking
(src/document_processing/chunking.py, pipeline.py) and hybrid retrieval
(src/rag/hybrid_retrieval.py, reranker.py), shallowly embedded in Lean 4.

Python dictionaries are modelled as insertion-ordered association lists,
Python floats as rationals, exceptions as Except, and the while-loop of
the token splitter as a fuel-indexed recursion where a result of none
means the loop has not finished within the given fuel (for no amount of
fuel, in the divergence theorems below).
-/

set_option maxHeartbeats 1000000

attribute [local semireducible] Rat.inv Rat.mul Rat.add Rat.sub

namespace ReqPlatform

/-! ## Embedding of the data model and the operations -/

/-- Metadata dictionary of a langchain Document, restricted to the keys that
the chunking pipeline and the hybrid retriever read or write
(chunking.py, pipeline.py, hybrid_retrieval.py); an absent key is none. -/
structure Metadata where
  source : Option String := none
  documentId : Option String := none
  filename : Option String := none
  chunkIndex : Option Nat := none
  totalChunks : Option Nat := none
  tokenCount : Option Nat := none
  isStandalone : Option Bool := none
  chunkId : Option String := none
deriving Repr, DecidableEq

/-- A langchain Document: page content plus metadata. -/
structure Document where
  pageContent : String
  metadata : Metadata
deriving Repr, DecidableEq

/-- Helper for pySplit: accumulate the current word (reversed) while walking
the character list, emitting a word at each whitespace run boundary. -/
def splitWSAux : List Char → List Char → List (List Char)
  | [], [] => []
  | [], acc => [acc.reverse]
  | c :: cs, acc =>
      if c.isWhitespace then
        match acc with
        | [] => splitWSAux cs []
        | _ => acc.reverse :: splitWSAux cs []
      else splitWSAux cs (c :: acc)

/-- Python str.split() with no argument: split on whitespace runs and drop
empty pieces. Used by hybrid_retrieval.py (lower().split()) and as the
reference tokenizer. -/
def pySplit (s : String) : List String :=
  (splitWSAux s.toList []).map fun cs => ⟨cs⟩

/-- Tokenizer oracle modelling a tiktoken encoding (chunking.py line 45):
encode turns text into a token sequence, decode turns a token slice back
into text. tiktoken token ids are opaque; they are modelled as strings. -/
structure Encoding where
  encode : String → List String
  decode : List String → String

/-- The reference whitespace tokenizer: encode splits on whitespace, decode
joins with single spaces. -/
def wsEncoding : Encoding where
  encode := pySplit
  decode := fun toks => String.intercalate " " toks

/-- Clamp a Python slice endpoint to an index into a list of length len:
negative indices count from the end, and both ends are clamped to [0, len]. -/
def pyIndex (len : Nat) (i : Int) : Nat :=
  if i < 0 then ((len : Int) + i).toNat else min i.toNat len

/-- Python list slicing l[a:b]. -/
def pySlice {α : Type} (l : List α) (a b : Int) : List α :=
  (l.take (pyIndex l.length b)).drop (pyIndex l.length a)

/-- Index of the first occurrence of sep as a substring of s
(Python str.find), none when sep does not occur. -/
def findSub (s sep : List Char) : Option Nat :=
  ((List.range (s.length + 1)).filter fun i => sep.isPrefixOf (s.drop i)).head?

/-- Index of the last occurrence of sep as a substring of s
(Python str.rfind), none when sep does not occur. -/
def rfindSub (s sep : List Char) : Option Nat :=
  ((List.range (s.length + 1)).filter fun i => sep.isPrefixOf (s.drop i)).getLast?

/-- The separator loop of TokenTextSplitter._adjust_boundary for
is_start=True (chunking.py lines 240-243): return the text after the first
separator found at a positive index, trying separators in priority order. -/
def adjustStartLoop (text : List Char) : List (List Char) → List Char
  | [] => text
  | sep :: seps =>
      match findSub text sep with
      | some idx => if 0 < idx then text.drop (idx + sep.length) else adjustStartLoop text seps
      | none => adjustStartLoop text seps

/-- The separator loop of TokenTextSplitter._adjust_boundary for
is_start=False (chunking.py lines 246-249): truncate the text just after the
last occurrence of the first separator found at a positive index. -/
def adjustEndLoop (text : List Char) : List (List Char) → List Char
  | [] => text
  | sep :: seps =>
      match rfindSub text sep with
      | some idx => if 0 < idx then text.take (idx + sep.length) else adjustEndLoop text seps
      | none => adjustEndLoop text seps

/-- Separator priority list of _adjust_boundary when is_start=True. -/
def startSeps : List (List Char) :=
  [['\n', '\n'], ['\n'], ['.', ' '], ['!', ' '], ['?', ' ']]

/-- Separator priority list of _adjust_boundary when is_start=False. -/
def endSeps : List (List Char) :=
  [['.', ' '], ['!', ' '], ['?'], ['\n', '\n'], ['\n']]

/-- TokenTextSplitter._adjust_boundary (chunking.py lines 222-251). -/
def adjustBoundary (text : String) (isStart : Bool) : String :=
  if isStart then ⟨adjustStartLoop text.toList startSeps⟩
  else ⟨adjustEndLoop text.toList endSeps⟩

/-- The sliding-window while-loop of TokenTextSplitter._split_by_tokens
(chunking.py lines 196-219), fuel-indexed. totalTokens is len(tokens),
computed once before the loop as in the source. Each iteration takes the
window tokens[start_idx : end_idx], decodes it, applies the end-boundary
adjustment when start_idx > 0, appends the chunk, then advances
start_idx = end_idx - chunk_overlap, forcing start_idx = end_idx whenever
that value would be at or beyond end_idx. none means the loop has not
exited within the given fuel. -/
def splitByTokensLoop (chunkSize chunkOverlap : Nat) (enc : Encoding)
    (tokens : List String) (totalTokens : Nat) :
    Nat → Int → List String → Option (List String)
  | 0, _, _ => none
  | fuel + 1, startIdx, chunks =>
      if startIdx < (totalTokens : Int) then
        let endIdx : Int := min (startIdx + (chunkSize : Int)) (totalTokens : Int)
        let chunkTokens := pySlice tokens startIdx endIdx
        let decoded := enc.decode chunkTokens
        let chunkText := if 0 < startIdx then adjustBoundary decoded false else decoded
        let nextStart : Int := endIdx - (chunkOverlap : Int)
        let nextStart' : Int := if endIdx ≤ nextStart then endIdx else nextStart
        splitByTokensLoop chunkSize chunkOverlap enc tokens totalTokens fuel nextStart'
          (chunks ++ [chunkText])
      else
        some chunks

/-- TokenTextSplitter._split_by_tokens (chunking.py lines 175-220): encode
the text, return it whole when it fits in one chunk, otherwise run the
sliding-window loop from start_idx = 0. -/
def splitByTokens (enc : Encoding) (chunkSize chunkOverlap fuel : Nat)
    (text : String) : Option (List String) :=
  let tokens := enc.encode text
  let totalTokens := tokens.length
  if totalTokens ≤ chunkSize then some [text]
  else splitByTokensLoop chunkSize chunkOverlap enc tokens totalTokens fuel 0 []

/-- Configuration recorded by TokenTextSplitter.__init__. -/
structure SplitterConfig where
  chunkSize : Nat
  chunkOverlap : Nat
deriving Repr, DecidableEq

/-- The failure kinds relevant to chunker construction: configurationError
is the error the specification prescribes; valueError models langchain's
ValueError, raised by the TextSplitter base constructor when the overlap it
is given exceeds the size it is given. -/
inductive ChunkingError where
  | configurationError
  | valueError
deriving Repr, DecidableEq

/-- Python falsy-or defaulting of an argument against a settings value: 0,
the only falsy Nat, selects the settings value (chunking.py lines 39-40). -/
def effectiveValue (arg settingsValue : Nat) : Nat :=
  if arg = 0 then settingsValue else arg

/-- TokenTextSplitter.__init__ (chunking.py lines 22-79): stores
chunk_size or settings.chunk_size and chunk_overlap or
settings.chunk_overlap (Python falsy-or), sets up the tiktoken encoding with
a non-failing fallback (no text is tokenized), then constructs langchain's
RecursiveCharacterTextSplitter with chunk_size * 4 and chunk_overlap * 4
(chunking.py lines 56-72); the langchain TextSplitter base constructor
raises ValueError when the overlap argument strictly exceeds the size
argument, so construction fails exactly when chunk_overlap * 4 is greater
than chunk_size * 4. No check of the specification's ConfigurationError
kind exists anywhere, and the equality case passes the langchain check. -/
def tokenTextSplitterInit
    (chunkSize chunkOverlap settingsChunkSize settingsChunkOverlap : Nat) :
    Except ChunkingError SplitterConfig :=
  let cs := effectiveValue chunkSize settingsChunkSize
  let ov := effectiveValue chunkOverlap settingsChunkOverlap
  if ov * 4 > cs * 4 then Except.error ChunkingError.valueError
  else Except.ok { chunkSize := cs, chunkOverlap := ov }

/-- Python str.lower(), character by character. -/
def pyLower (s : String) : String :=
  ⟨s.toList.map Char.toLower⟩

/-- First-match lookup in an insertion-ordered association list (reading a
Python dict, whose keys are unique by construction). -/
def lookupA {α : Type} : List (String × α) → String → Option α
  | [], _ => none
  | (k, v) :: rest, key => if k = key then some v else lookupA rest key

/-- Python containment test, key in dict. -/
def hasKey {α : Type} (m : List (String × α)) (key : String) : Bool :=
  (lookupA m key).isSome

/-- Python dict assignment d[key] = v: replace in place when the key exists,
otherwise append, preserving insertion order. -/
def updateA {α : Type} : List (String × α) → String → α → List (String × α)
  | [], key, v => [(key, v)]
  | (k, w) :: rest, key, v =>
      if k = key then (k, v) :: rest else (k, w) :: updateA rest key v

/-- Python dict bump d[key] = d.get(key, 0) + v on a dict of rational
scores. -/
def bumpScore (m : List (String × ℚ)) (key : String) (v : ℚ) : List (String × ℚ) :=
  updateA m key ((lookupA m key).getD 0 + v)

/-- Python collections.Counter over a term list: term to occurrence count,
keys in first-occurrence order. -/
def counter (terms : List String) : List (String × Nat) :=
  terms.foldl (fun m t => updateA m t ((lookupA m t).getD 0 + 1)) []

/-- A keyword-index entry of HybridRetriever: a dict holding the term
frequencies under "tf" and the term count under "length"
(hybrid_retrieval.py line 51). -/
structure Posting where
  tf : List (String × Nat)
  length : Nat
deriving Repr, DecidableEq

/-- The in-memory state of HybridRetriever: _keyword_index and
_document_map, both Python dicts modelled as insertion-ordered association
lists (hybrid_retrieval.py lines 32-33). -/
structure RetrieverState where
  keywordIndex : List (String × Posting)
  documentMap : List (String × Document)
deriving Repr, DecidableEq

/-- The state right after HybridRetriever.__init__: both dicts empty. -/
def emptyRetriever : RetrieverState := ⟨[], []⟩

/-- The identifier under which a document is indexed and fused:
doc.metadata.get("chunk_id", doc.metadata.get("source", ""))
(hybrid_retrieval.py lines 43 and 146). -/
def docKey (d : Document) : String :=
  d.metadata.chunkId.getD (d.metadata.source.getD "")

/-- The posting computed for one document by add_documents
(hybrid_retrieval.py lines 47-51): term frequencies of the lowercased
whitespace-split text plus the term count. -/
def docPosting (doc : Document) : Posting :=
  { tf := counter (pySplit (pyLower doc.pageContent))
    length := (pySplit (pyLower doc.pageContent)).length }

/-- The body of the for-loop of HybridRetriever.add_documents
(hybrid_retrieval.py lines 42-51) for one document: always (re)assign the
document map entry, and create the keyword posting only when the key is not
yet present in the keyword index. -/
def addDocument (st : RetrieverState) (doc : Document) : RetrieverState :=
  let docId := docKey doc
  let documentMap' := updateA st.documentMap docId doc
  let keywordIndex' :=
    if hasKey st.keywordIndex docId then st.keywordIndex
    else st.keywordIndex ++ [(docId, docPosting doc)]
  { keywordIndex := keywordIndex', documentMap := documentMap' }

/-- HybridRetriever.add_documents (hybrid_retrieval.py lines 37-51). -/
def addDocuments (st : RetrieverState) (documents : List Document) : RetrieverState :=
  documents.foldl addDocument st

/-- Stable insertion of x into a list sorted by weakly descending key: x goes
in front of the first element whose key is less than or equal to its own. -/
def insertDesc {α : Type} (key : α → ℚ) (x : α) : List α → List α
  | [] => [x]
  | y :: ys => if key y ≤ key x then x :: y :: ys else y :: insertDesc key x ys

/-- Python sorted(l, key=key, reverse=True) and list.sort(key=key,
reverse=True): stable sort by weakly descending key, elements with equal
keys keeping their input order. -/
def sortDesc {α : Type} (key : α → ℚ) : List α → List α
  | [] => []
  | x :: xs => insertDesc key x (sortDesc key xs)

/-- The per-document score of HybridRetriever._keyword_search
(hybrid_retrieval.py lines 116-124): over each query term occurring in the
posting, add term frequency divided by document length (0 on an empty
document). -/
def kwScore (queryTerms : List String) (p : Posting) : ℚ :=
  queryTerms.foldl
    (fun score term =>
      match lookupA p.tf term with
      | some c => score + (if 0 < p.length then (c : ℚ) / (p.length : ℚ) else 0)
      | none => score)
    0

/-- HybridRetriever._keyword_search (hybrid_retrieval.py lines 110-131):
score every indexed document, keep the strictly positive scores in index
order, sort by descending score (Python's stable sort) and take the
first k. -/
def keywordSearch (st : RetrieverState) (query : String) (k : Nat) :
    List (String × ℚ) :=
  let queryTerms := pySplit (pyLower query)
  let scores := (st.keywordIndex.map fun e => (e.1, kwScore queryTerms e.2)).filter
    fun e => decide (0 < e.2)
  (sortDesc (fun e => e.2) scores).take k

/-- The vector-results pass of _reciprocal_rank_fusion (hybrid_retrieval.py
lines 145-148): for each vector hit in rank order starting at 1, add
vector_weight / (60 + rank) to its fused score. -/
def rrfVectorPass (vectorWeight : ℚ) :
    List (Document × ℚ) → Nat → List (String × ℚ) → List (String × ℚ)
  | [], _, m => m
  | (doc, _) :: rest, rank, m =>
      rrfVectorPass vectorWeight rest (rank + 1)
        (bumpScore m (docKey doc) (vectorWeight / (60 + (rank : ℚ))))

/-- The keyword-results pass of _reciprocal_rank_fusion (hybrid_retrieval.py
lines 151-153). -/
def rrfKeywordPass (keywordWeight : ℚ) :
    List (String × ℚ) → Nat → List (String × ℚ) → List (String × ℚ)
  | [], _, m => m
  | (docId, _) :: rest, rank, m =>
      rrfKeywordPass keywordWeight rest (rank + 1)
        (bumpScore m docId (keywordWeight / (60 + (rank : ℚ))))

/-- The rrf_scores dict after both passes of _reciprocal_rank_fusion. -/
def rrfScores (vectorResults : List (Document × ℚ))
    (keywordResults : List (String × ℚ)) (vectorWeight keywordWeight : ℚ) :
    List (String × ℚ) :=
  rrfKeywordPass keywordWeight keywordResults 1
    (rrfVectorPass vectorWeight vectorResults 1 [])

/-- The final loop of _reciprocal_rank_fusion (hybrid_retrieval.py
lines 159-161): materialize ranked ids through _document_map, silently
skipping ids that do not resolve there. -/
def resolveDocs (st : RetrieverState) : List (String × ℚ) → List Document
  | [] => []
  | (docId, _) :: rest =>
      match lookupA st.documentMap docId with
      | some doc => doc :: resolveDocs st rest
      | none => resolveDocs st rest

/-- HybridRetriever._reciprocal_rank_fusion (hybrid_retrieval.py
lines 133-163): bump scores over both ranked lists, sort the score dict by
descending value (Python's stable sort, ties keeping dict insertion order),
truncate to k, then resolve through the document map. -/
def reciprocalRankFusion (st : RetrieverState)
    (vectorResults : List (Document × ℚ)) (keywordResults : List (String × ℚ))
    (k : Nat) (vectorWeight keywordWeight : ℚ) : List Document :=
  resolveDocs st
    ((sortDesc (fun e => e.2)
      (rrfScores vectorResults keywordResults vectorWeight keywordWeight)).take k)

/-- The vector backend interface used by HybridRetriever: the two Pinecone
calls it makes, each of which may raise (modelled as Except; the metadata
filter argument is passed through unchanged by the retriever and is
omitted). -/
structure VectorStore where
  similaritySearchWithScores : String → Nat → Except String (List (Document × ℚ))
  similaritySearch : String → Nat → Except String (List Document)

/-- HybridRetriever.retrieve (hybrid_retrieval.py lines 53-108): inside the
try block, vector search with k * 2, keyword search with k * 2 (pure, cannot
raise), fusion (pure, cannot raise); on any exception the except block falls
back to a plain vector-only similarity_search with k, whose own outcome
(including failure) is what the caller sees. -/
def retrieve (vs : VectorStore) (st : RetrieverState) (query : String)
    (k : Nat) (vectorWeight keywordWeight : ℚ) : Except String (List Document) :=
  match vs.similaritySearchWithScores query (k * 2) with
  | Except.ok vectorDocs =>
      let keywordScores := keywordSearch st query (k * 2)
      Except.ok
        (reciprocalRankFusion st vectorDocs keywordScores k vectorWeight keywordWeight)
  | Except.error _ => vs.similaritySearch query k

/-- Reranker.rerank (reranker.py lines 29-81). The scorer argument stands
for the pluggable scoring step self._llm_rerank / self._keyword_rerank; a
raising scorer is modelled by Except.error. Empty input returns [], a
single document is returned unchanged, a successful scoring is sorted by
descending score; truncation applies only when top_k is truthy (not None
and not 0), both on success and in the except branch. -/
def rerank (scorer : String → List Document → Except String (List (Document × ℚ)))
    (query : String) (documents : List Document) (topK : Option Nat) :
    List Document :=
  if documents.length = 0 then []
  else if documents.length = 1 then documents
  else
    match scorer query documents with
    | Except.ok scoredDocs =>
        let reranked := (sortDesc (fun e => e.2) scoredDocs).map fun e => e.1
        match topK with
        | some t => if t = 0 then reranked else reranked.take t
        | none => reranked
    | Except.error _ =>
        match topK with
        | some t => if t = 0 then documents else documents.take t
        | none => documents

/-- The operations a caller can perform on a HybridRetriever after
construction: add_documents, or retrieve (which only reads the two dicts,
never writes them). -/
inductive RetrieverOp where
  | add (documents : List Document)
  | query (q : String) (k : Nat)

/-- Effect of one operation on the retriever state: add_documents mutates
the two dicts, retrieve leaves them unchanged. -/
def applyOp (st : RetrieverState) : RetrieverOp → RetrieverState
  | RetrieverOp.add documents => addDocuments st documents
  | RetrieverOp.query _ _ => st

/-- The retriever state after a sequence of operations performed on a
freshly constructed HybridRetriever. -/
def runOps (ops : List RetrieverOp) : RetrieverState :=
  ops.foldl applyOp emptyRetriever

/-- TokenTextSplitter._count_tokens (chunking.py lines 81-91). -/
def countTokens (enc : Encoding) (text : String) : Nat :=
  (enc.encode text).length

/-- The chunk-Document construction loop of split_documents for a document
larger than chunk_size (chunking.py lines 133-149): enumerate the chunk
texts, each chunk carrying the parent metadata plus chunk_index,
total_chunks, token_count and is_standalone = False. -/
def buildChunkDocs (enc : Encoding) (m : Metadata) (total : Nat) :
    List String → Nat → List Document
  | [], _ => []
  | text :: rest, idx =>
      { pageContent := text
        metadata := { m with
          chunkIndex := some idx
          totalChunks := some total
          tokenCount := some (countTokens enc text)
          isStandalone := some false } }
        :: buildChunkDocs enc m total rest (idx + 1)

/-- TokenTextSplitter.split_documents (chunking.py lines 93-173): each input
document is processed independently; a document whose token count is at most
chunk_size becomes a single standalone chunk with chunk_index 0, a larger
one is split by _split_by_tokens (fuel-indexed; none propagates the
divergence of that loop). The chunk_index counter restarts at 0 for every
input document. The except branch of the source (which appends the original
document on a raised exception) is unreachable in this pure model. -/
def splitDocuments (enc : Encoding) (chunkSize chunkOverlap fuel : Nat) :
    List Document → Option (List Document)
  | [] => some []
  | doc :: rest => do
      let originalTokens := countTokens enc doc.pageContent
      let docChunks ←
        if originalTokens ≤ chunkSize then
          some [{ pageContent := doc.pageContent
                  metadata := { doc.metadata with
                    chunkIndex := some 0
                    totalChunks := some 1
                    tokenCount := some originalTokens
                    isStandalone := some true } }]
        else
          (splitByTokens enc chunkSize chunkOverlap fuel doc.pageContent).map
            fun chunkTexts => buildChunkDocs enc doc.metadata chunkTexts.length chunkTexts 0
      let restChunks ← splitDocuments enc chunkSize chunkOverlap fuel rest
      some (docChunks ++ restChunks)

/-- DocumentProcessingPipeline._finalize_chunk_metadata (pipeline.py
lines 203-237): set document_id on every chunk and assign the chunk_id
f-string document_id + "_chunk_" + chunk_index, with chunk_index read from
the chunk metadata defaulting to 0. -/
def finalizeChunkMetadata (chunks : List Document) (documentId : String) :
    List Document :=
  chunks.map fun chunk =>
    let chunkIdx := chunk.metadata.chunkIndex.getD 0
    { pageContent := chunk.pageContent
      metadata := { chunk.metadata with
        documentId := some documentId
        chunkId := some (documentId ++ "_chunk_" ++ toString chunkIdx) } }

/-- First page of a two-page PDF upload, as produced by
ConfluencePDFLoader.load_from_bytes (one Document per page). -/
def pdfPage1 : Document :=
  { pageContent := "alpha beta", metadata := { source := some "spec.pdf" } }

/-- Second page of the same upload. -/
def pdfPage2 : Document :=
  { pageContent := "gamma delta", metadata := { source := some "spec.pdf" } }

/-- A vector backend that fails on both of its calls. -/
def failingVectorStore : VectorStore where
  similaritySearchWithScores := fun _ _ => Except.error "vector backend down"
  similaritySearch := fun _ _ => Except.error "vector backend down"

/-- An indexed chunk whose text matches the query used below. -/
def chunkDocA : Document :=
  { pageContent := "login requirements", metadata := { chunkId := some "doc1_chunk_0" } }

/-- The retriever state after indexing that one chunk. -/
def kwState : RetrieverState := addDocuments emptyRetriever [chunkDocA]

/-- A chunk as first indexed. -/
def chunkV1 : Document :=
  { pageContent := "old text", metadata := { chunkId := some "c1" } }

/-- The same chunk re-indexed with changed text. -/
def chunkV2 : Document :=
  { pageContent := "completely new text", metadata := { chunkId := some "c1" } }

/-- First candidate document for the reranker examples. -/
def rerankDoc1 : Document := { pageContent := "first", metadata := {} }

/-- Second candidate document for the reranker examples. -/
def rerankDoc2 : Document := { pageContent := "second", metadata := {} }

/-- A scorer that always raises. -/
def throwingScorer : String → List Document → Except String (List (Document × ℚ)) :=
  fun _ _ => Except.error "scorer failed"

/-- A chunk indexed before tieDocA, with identical text. -/
def tieDocB : Document :=
  { pageContent := "shared term", metadata := { chunkId := some "b" } }

/-- A chunk with the lexicographically smaller id, indexed second. -/
def tieDocA : Document :=
  { pageContent := "shared term", metadata := { chunkId := some "a" } }

/-- State in which ids "b" and "a" hold identical texts, "b" indexed
first. -/
def tieState : RetrieverState := addDocuments emptyRetriever [tieDocB, tieDocA]

/-- Zero-based index of the first occurrence of an id in a ranked id
list. -/
def findRank : List String → String → Option Nat
  | [], _ => none
  | x :: xs, id => if x = id then some 0 else (findRank xs id).map (· + 1)

/-- The RRF contribution of one source to one chunk_id as the specification
states it: source_weight / (60 + r) where r is the id's 1-based rank in the
source's ranked list, and 0 when the source does not list the id. -/
def rrfContribution (w : ℚ) (ids : List String) (id : String) : ℚ :=
  match findRank ids id with
  | some i => w / (60 + ((1 + i : Nat) : ℚ))
  | none => 0

/-- The two score-bumping passes of _reciprocal_rank_fusion, abstracted over
the ranked id list each pass walks. -/
def rrfPass (w : ℚ) : List String → Nat → List (String × ℚ) → List (String × ℚ)
  | [], _, m => m
  | id :: rest, rank, m =>
      rrfPass w rest (rank + 1) (bumpScore m id (w / (60 + (rank : ℚ))))

/-- The chunk resolving id "b", listed by the vector source. -/
def fusionDocB : Document :=
  { pageContent := "text b", metadata := { chunkId := some "b" } }

/-- The chunk resolving id "a", listed by the keyword source. -/
def fusionDocA : Document :=
  { pageContent := "text a", metadata := { chunkId := some "a" } }

/-- State resolving both fusion ids. -/
def fusionState : RetrieverState :=
  addDocuments emptyRetriever [fusionDocB, fusionDocA]

/-- The cross-dict invariant of HybridRetriever: every key of
_keyword_index is also a key of _document_map. -/
def IndexSubsetDocMap (st : RetrieverState) : Prop :=
  ∀ id : String, hasKey st.keywordIndex id = true →
    hasKey st.documentMap id = true

/-! ## Theorems -/

/-- With chunk_size = 2, overlap = 1, total = 3 tokens, every reachable loop
start index lies in {0, 1, 2} and the loop never exits: from start 2 the
window end is 3, and the advance resets start to 3 - 1 = 2 again. -/
theorem splitByTokensLoop_stuck_2_1_3 (enc : Encoding) (tokens : List String) :
    ∀ (fuel : Nat) (startIdx : Int) (chunks : List String),
      startIdx = 0 ∨ startIdx = 1 ∨ startIdx = 2 →
      splitByTokensLoop 2 1 enc tokens 3 fuel startIdx chunks = none := by
  intro fuel
  induction fuel with
  | zero => intro startIdx chunks h; rfl
  | succ n ih =>
      intro startIdx chunks h
      rcases h with rfl | rfl | rfl
      · rw [splitByTokensLoop]
        norm_num [min_def]
        exact ih _ _ (Or.inr (Or.inl rfl))
      · rw [splitByTokensLoop]
        norm_num [min_def]
        exact ih _ _ (Or.inr (Or.inr rfl))
      · rw [splitByTokensLoop]
        norm_num [min_def]
        exact ih _ _ (Or.inr (Or.inr rfl))

/-- With chunk_size = 3, overlap = 1, total = 5 tokens, every reachable loop
start index lies in {0, 2, 4} and the loop never exits: from start 4 the
window end is 5, and the advance resets start to 5 - 1 = 4 again. -/
theorem splitByTokensLoop_stuck_3_1_5 (enc : Encoding) (tokens : List String) :
    ∀ (fuel : Nat) (startIdx : Int) (chunks : List String),
      startIdx = 0 ∨ startIdx = 2 ∨ startIdx = 4 →
      splitByTokensLoop 3 1 enc tokens 5 fuel startIdx chunks = none := by
  intro fuel
  induction fuel with
  | zero => intro startIdx chunks h; rfl
  | succ n ih =>
      intro startIdx chunks h
      rcases h with rfl | rfl | rfl
      · rw [splitByTokensLoop]
        norm_num [min_def]
        exact ih _ _ (Or.inr (Or.inl rfl))
      · rw [splitByTokensLoop]
        norm_num [min_def]
        exact ih _ _ (Or.inr (Or.inr rfl))
      · rw [splitByTokensLoop]
        norm_num [min_def]
        exact ih _ _ (Or.inr (Or.inr rfl))

/-- C1: the claim states that for chunk_size > overlap >= 0 the
sliding-window loop of _split_by_tokens always terminates because the
forward-progress guard forces start = end whenever the advance would not
move start. The code is wrong: with chunk_size = 2, overlap = 1 on a
3-token text, once the window end reaches the total the advance resets
start to total - overlap = 2 < 3 on every iteration, the guard (which only
fires when end - overlap is at or beyond end, i.e. never for positive
overlap) does not help, and the loop never exits: for every fuel the loop
is still running. The repository's own test
(tests/test_document_processing.py, test_chunking_logic) would hang on this
code path, and the code's comment on the guard documents the opposite
intent. -/
theorem splitByTokens_diverges_on_valid_config :
    ∀ fuel : Nat, splitByTokens wsEncoding 2 1 fuel "a b c" = none := by
  intro fuel
  have henc : wsEncoding.encode "a b c" = ["a", "b", "c"] := by decide
  show (if (wsEncoding.encode "a b c").length ≤ 2 then some ["a b c"]
    else splitByTokensLoop 2 1 wsEncoding (wsEncoding.encode "a b c")
      (wsEncoding.encode "a b c").length fuel 0 []) = none
  rw [henc]
  norm_num
  exact splitByTokensLoop_stuck_2_1_3 _ _ fuel 0 [] (Or.inl rfl)

/-- C4: the claim states that for any text with more than chunk_size tokens
and overlap < chunk_size, the returned chunk list covers the token range
without gaps with bounded overlaps. The code is wrong at an earlier point:
for chunk_size = 3, overlap = 1 on a 5-token text no chunk list is ever
returned, because the sliding-window loop diverges once the window end
reaches the total (start is reset to 4 = 5 - 1 forever), so the claimed
coverage property has no object to hold of. -/
theorem splitByTokens_no_chunk_list_to_cover :
    ∀ fuel : Nat, splitByTokens wsEncoding 3 1 fuel "a b c d e" = none := by
  intro fuel
  have henc : wsEncoding.encode "a b c d e" = ["a", "b", "c", "d", "e"] := by decide
  show (if (wsEncoding.encode "a b c d e").length ≤ 3 then some ["a b c d e"]
    else splitByTokensLoop 3 1 wsEncoding (wsEncoding.encode "a b c d e")
      (wsEncoding.encode "a b c d e").length fuel 0 []) = none
  rw [henc]
  norm_num
  exact splitByTokensLoop_stuck_3_1_5 _ _ fuel 0 [] (Or.inl rfl)

/-- C2 counterexample: at chunk_size = 5, overlap = 5 (the boundary case of
chunk_size at most overlap) construction does not fail at all, because the
langchain guard is strict, and at chunk_size = 5, overlap = 10 construction
fails with langchain's ValueError; in neither case does the claimed
ConfigurationError arise. -/
theorem tokenTextSplitterInit_no_configurationError :
    tokenTextSplitterInit 5 5 512 50 = Except.ok ⟨5, 5⟩
      ∧ tokenTextSplitterInit 5 10 512 50
          = Except.error ChunkingError.valueError :=
  ⟨rfl, rfl⟩

/-- C2 amended: construction fails before any text is tokenized exactly when
the effective overlap strictly exceeds the effective chunk size, and then
with langchain's ValueError (raised by the RecursiveCharacterTextSplitter
base constructor comparing overlap * 4 against size * 4), never with a
ConfigurationError, which does not exist in the code; with the effective
overlap equal to the effective chunk size — the boundary case of the
claimed chunk_size ≤ overlap — no error is raised and the invalid
configuration is stored unchanged. -/
theorem tokenTextSplitterInit_valueError_boundary
    (chunkSize chunkOverlap settingsChunkSize settingsChunkOverlap : Nat) :
    (effectiveValue chunkSize settingsChunkSize
        < effectiveValue chunkOverlap settingsChunkOverlap →
      tokenTextSplitterInit chunkSize chunkOverlap settingsChunkSize
          settingsChunkOverlap
        = Except.error ChunkingError.valueError)
    ∧ (effectiveValue chunkOverlap settingsChunkOverlap
          ≤ effectiveValue chunkSize settingsChunkSize →
      tokenTextSplitterInit chunkSize chunkOverlap settingsChunkSize
          settingsChunkOverlap
        = Except.ok ⟨effectiveValue chunkSize settingsChunkSize,
            effectiveValue chunkOverlap settingsChunkOverlap⟩) := by
  constructor
  · intro h
    have h4 : effectiveValue chunkSize settingsChunkSize * 4
        < effectiveValue chunkOverlap settingsChunkOverlap * 4 := by omega
    simp [tokenTextSplitterInit, h4]
  · intro h
    have h4 : ¬ (effectiveValue chunkSize settingsChunkSize * 4
        < effectiveValue chunkOverlap settingsChunkOverlap * 4) := by omega
    simp [tokenTextSplitterInit, h4]

/-- Witness for the C2 amended theorem at both boundary inputs: strict
excess fails with ValueError, equality is accepted. -/
theorem tokenTextSplitterInit_valueError_boundary_witness :
    tokenTextSplitterInit 5 10 512 50 = Except.error ChunkingError.valueError
      ∧ tokenTextSplitterInit 5 5 512 50 = Except.ok ⟨5, 5⟩ :=
  ⟨(tokenTextSplitterInit_valueError_boundary 5 10 512 50).1 (by decide),
    (tokenTextSplitterInit_valueError_boundary 5 5 512 50).2 (by decide)⟩

/-- C6: the claim states that chunk ordinals are 0-based and contiguous
across the whole uploaded document and that chunk_ids are globally unique.
The code is wrong for any document the loader returns as more than one
Document (a multi-page PDF): split_documents restarts chunk_index at 0 for
every loaded page, and _finalize_chunk_metadata derives chunk_id from that
per-page index, so the two pages of one upload both receive chunk_index 0
and the same chunk_id "doc1_chunk_0" - contradicting the code's own
"global chunk identifier" comment (pipeline.py line 227). -/
theorem finalizeChunkMetadata_duplicate_chunk_ids :
    ((finalizeChunkMetadata
        ((splitDocuments wsEncoding 512 50 1 [pdfPage1, pdfPage2]).getD [])
        "doc1").map fun c => (c.metadata.chunkId, c.metadata.chunkIndex))
      = [(some "doc1_chunk_0", some 0), (some "doc1_chunk_0", some 0)] := by
  decide

/-- C3 counterexample: with the vector backend erroring and the keyword
index healthy and matching the query (its keyword-only ranking is
non-empty), retrieve does not return the keyword-only ranking: the except
branch re-queries the failing vector store via similarity_search and
surfaces that error, and no RetrievalUnavailable exists anywhere in the
code. -/
theorem retrieve_vector_error_not_keyword_ranking :
    retrieve failingVectorStore kwState "login" 5 (7/10) (3/10)
        = Except.error "vector backend down"
      ∧ keywordSearch kwState "login" 10 ≠ [] := by
  exact ⟨rfl, by decide⟩

/-- C3 amended: whenever the try block of retrieve fails (the vector search
with k * 2 raises), retrieve falls back to the vector store's plain
similarity_search with k and returns its outcome unchanged - the keyword
index is never consulted for degradation, so a failing vector backend with a
healthy keyword index yields whatever the vector-only fallback yields (the
propagated vector error when the backend keeps failing), and
RetrievalUnavailable is never raised. -/
theorem retrieve_falls_back_to_vector_only (vs : VectorStore)
    (st : RetrieverState) (query : String) (k : Nat)
    (vectorWeight keywordWeight : ℚ) (e : String)
    (h : vs.similaritySearchWithScores query (k * 2) = Except.error e) :
    retrieve vs st query k vectorWeight keywordWeight
      = vs.similaritySearch query k := by
  unfold retrieve
  rw [h]

/-- Witness for the C3 amended theorem at a concrete failing backend. -/
theorem retrieve_falls_back_to_vector_only_witness :
    retrieve failingVectorStore kwState "login" 5 (7/10) (3/10)
      = failingVectorStore.similaritySearch "login" 5 :=
  retrieve_falls_back_to_vector_only failingVectorStore kwState "login" 5
    (7/10) (3/10) "vector backend down" rfl

/-- C7 counterexample: adding chunkV1 and then chunkV2 (same chunk_id,
different text) does not leave the keyword index equal to the state after
adding chunkV2 alone: the posting of the first write survives, because
add_documents only creates a posting when the key is absent. -/
theorem addDocuments_not_posting_upsert :
    (addDocuments (addDocuments emptyRetriever [chunkV1]) [chunkV2]).keywordIndex
      ≠ (addDocuments emptyRetriever [chunkV2]).keywordIndex := by
  decide

/-- lookupA after updateA: the updated key reads the new value, every other
key is unaffected. -/
theorem lookupA_updateA {α : Type} (m : List (String × α)) (key key' : String)
    (v : α) :
    lookupA (updateA m key v) key'
      = if key' = key then some v else lookupA m key' := by
  induction m with
  | nil =>
      simp only [updateA, lookupA]
      by_cases h : key = key'
      · subst h; simp
      · rw [if_neg h, if_neg fun hh : key' = key => h hh.symm]
  | cons e rest ih =>
      obtain ⟨a, b⟩ := e
      by_cases ha : a = key
      · subst ha
        simp only [updateA, if_pos rfl, lookupA]
        by_cases h : a = key'
        · subst h; simp
        · rw [if_neg h, if_neg fun hh : key' = a => h hh.symm, if_neg h]
      · simp only [updateA, if_neg ha, lookupA, ih]
        by_cases h : a = key'
        · subst h
          rw [if_pos rfl, if_neg fun hh : a = key => ha hh, if_pos rfl]
        · rw [if_neg h, if_neg h]

/-- Updating the same key twice keeps only the second value. -/
theorem updateA_updateA {α : Type} (m : List (String × α)) (key : String)
    (v w : α) :
    updateA (updateA m key v) key w = updateA m key w := by
  induction m with
  | nil => simp [updateA]
  | cons e rest ih =>
      obtain ⟨a, b⟩ := e
      by_cases ha : a = key
      · simp [updateA, ha]
      · simp [updateA, ha, ih]

/-- lookupA distributes over append: the left list wins. -/
theorem lookupA_append {α : Type} (m l : List (String × α)) (key : String) :
    lookupA (m ++ l) key
      = match lookupA m key with
        | some v => some v
        | none => lookupA l key := by
  induction m with
  | nil => simp [lookupA]
  | cons e rest ih =>
      obtain ⟨a, b⟩ := e
      by_cases ha : a = key
      · simp [lookupA, ha]
      · simp [lookupA, ha, ih]

/-- A key appended at the back of an association list is always found. -/
theorem hasKey_append_singleton {α : Type} (m : List (String × α)) (key : String)
    (v : α) : hasKey (m ++ [(key, v)]) key = true := by
  unfold hasKey
  rw [lookupA_append]
  cases hl : lookupA m key <;> simp [hl, lookupA]

/-- After addDocument, the document's key is present in the keyword
index. -/
theorem hasKey_keywordIndex_addDocument (st : RetrieverState) (c : Document) :
    hasKey (addDocument st c).keywordIndex (docKey c) = true := by
  simp only [addDocument]
  by_cases h : hasKey st.keywordIndex (docKey c) = true
  · simp [h]
  · simp [h, hasKey_append_singleton]

/-- Two retriever states with equal fields are equal. -/
theorem retrieverState_eq (s t : RetrieverState)
    (h1 : s.keywordIndex = t.keywordIndex) (h2 : s.documentMap = t.documentMap) :
    s = t := by
  cases s; cases t; cases h1; cases h2; rfl

/-- The keyword index produced by addDocument keeps the previous index
whenever the document's key is already present. -/
theorem addDocument_keywordIndex_of_hasKey (st : RetrieverState) (c : Document)
    (h : hasKey st.keywordIndex (docKey c) = true) :
    (addDocument st c).keywordIndex = st.keywordIndex := by
  simp [addDocument, h]

/-- The document map produced by addDocument is updateA at the document's
key. -/
theorem addDocument_documentMap (st : RetrieverState) (c : Document) :
    (addDocument st c).documentMap = updateA st.documentMap (docKey c) c := rfl

/-- C7 amended: add_documents upserts the document map but the keyword
posting is first-write-wins. For two chunks carrying the same chunk_id,
adding the first and then the second leaves the document map exactly as
after adding the second alone, while the keyword index keeps the state
produced by the first add; adding the very same chunk twice equals adding
it once. -/
theorem addDocument_docmap_upsert_posting_first_write (st : RetrieverState)
    (c1 c2 : Document) (h : docKey c1 = docKey c2) :
    (addDocument (addDocument st c1) c2).documentMap
        = (addDocument st c2).documentMap
      ∧ (addDocument (addDocument st c1) c2).keywordIndex
        = (addDocument st c1).keywordIndex
      ∧ ∀ c : Document, addDocument (addDocument st c) c = addDocument st c := by
  refine ⟨?_, ?_, ?_⟩
  · rw [addDocument_documentMap, addDocument_documentMap,
      addDocument_documentMap, h, updateA_updateA]
  · exact addDocument_keywordIndex_of_hasKey (addDocument st c1) c2
      (h ▸ hasKey_keywordIndex_addDocument st c1)
  · intro c
    refine retrieverState_eq _ _ ?_ ?_
    · exact addDocument_keywordIndex_of_hasKey (addDocument st c) c
        (hasKey_keywordIndex_addDocument st c)
    · rw [addDocument_documentMap, addDocument_documentMap, updateA_updateA]

/-- Witness for the C7 amended theorem at the concrete re-indexed chunk. -/
theorem addDocument_docmap_upsert_witness :
    (addDocument (addDocument emptyRetriever chunkV1) chunkV2).documentMap
      = (addDocument emptyRetriever chunkV2).documentMap :=
  (addDocument_docmap_upsert_posting_first_write emptyRetriever chunkV1 chunkV2
    rfl).1

/-- C9 counterexample: with a throwing scorer, two candidates and
top_k = 0, rerank does not return the input truncated to the first 0
documents (the empty list): Python's truthiness test (if top_k) treats 0
like None and the full original list comes back. -/
theorem rerank_topk_zero_not_truncated :
    rerank throwingScorer "q" [rerankDoc1, rerankDoc2] (some 0)
        = [rerankDoc1, rerankDoc2]
      ∧ rerank throwingScorer "q" [rerankDoc1, rerankDoc2] (some 0)
          ≠ List.take 0 [rerankDoc1, rerankDoc2] := by
  decide

/-- C9 amended: rerank never propagates a scorer failure and returns 0- or
1-element inputs unchanged for every scorer; when the scorer raises on a
larger input, the original input ordering is returned, truncated to the
first top_k documents only when top_k is a truthy value (neither None nor
0) - for top_k None or 0 the whole original list is returned. -/
theorem rerank_fail_open_behavior
    (scorer : String → List Document → Except String (List (Document × ℚ)))
    (query : String) (topK : Option Nat) :
    (rerank scorer query [] topK = []
      ∧ ∀ d : Document, rerank scorer query [d] topK = [d])
    ∧ ∀ (documents : List Document) (e : String),
        scorer query documents = Except.error e →
        rerank scorer query documents topK
          = if documents.length ≤ 1 then documents
            else
              match topK with
              | some t => if t = 0 then documents else documents.take t
              | none => documents := by
  refine ⟨⟨rfl, fun d => rfl⟩, ?_⟩
  intro documents e he
  match documents with
  | [] => rfl
  | [d] => rfl
  | d1 :: d2 :: rest =>
      have h0 : ¬ ((d1 :: d2 :: rest).length = 0) := by simp
      have h1 : ¬ ((d1 :: d2 :: rest).length = 1) := by simp
      have h2 : ¬ ((d1 :: d2 :: rest).length ≤ 1) := by simp
      unfold rerank
      rw [if_neg h0, if_neg h1, he, if_neg h2]

/-- Witness for the C9 amended theorem: throwing scorer, two documents,
truthy top_k = 1. -/
theorem rerank_fail_open_witness :
    rerank throwingScorer "q" [rerankDoc1, rerankDoc2] (some 1) = [rerankDoc1] := by
  have h := (rerank_fail_open_behavior throwingScorer "q" (some 1)).2
    [rerankDoc1, rerankDoc2] "scorer failed" rfl
  simpa using h

/-- Membership in insertDesc. -/
theorem mem_insertDesc {α : Type} (key : α → ℚ) (x y : α) (l : List α) :
    y ∈ insertDesc key x l ↔ y = x ∨ y ∈ l := by
  induction l with
  | nil => simp [insertDesc]
  | cons z zs ih =>
      simp only [insertDesc]
      by_cases h : key z ≤ key x
      · rw [if_pos h]
        simp [List.mem_cons]
      · rw [if_neg h]
        simp only [List.mem_cons, ih]
        tauto

/-- Membership in sortDesc. -/
theorem mem_sortDesc {α : Type} (key : α → ℚ) (y : α) (l : List α) :
    y ∈ sortDesc key l ↔ y ∈ l := by
  induction l with
  | nil => simp [sortDesc]
  | cons x xs ih =>
      simp only [sortDesc, mem_insertDesc, List.mem_cons, ih]

/-- insertDesc preserves the weakly-descending-key invariant. -/
theorem pairwise_insertDesc {α : Type} (key : α → ℚ) (x : α) (l : List α)
    (hl : List.Pairwise (fun a b => key b ≤ key a) l) :
    List.Pairwise (fun a b => key b ≤ key a) (insertDesc key x l) := by
  induction l with
  | nil => simp [insertDesc]
  | cons z zs ih =>
      rw [List.pairwise_cons] at hl
      obtain ⟨hz, hzs⟩ := hl
      simp only [insertDesc]
      by_cases h : key z ≤ key x
      · rw [if_pos h]
        refine List.Pairwise.cons ?_ (List.Pairwise.cons hz hzs)
        intro b hb
        rcases List.mem_cons.mp hb with rfl | hb'
        · exact h
        · exact le_trans (hz b hb') h
      · rw [if_neg h]
        refine List.Pairwise.cons ?_ (ih hzs)
        intro b hb
        rcases (mem_insertDesc key x b zs).mp hb with rfl | hb'
        · exact le_of_not_le h
        · exact hz b hb'

/-- The output of sortDesc is weakly descending in its key. -/
theorem pairwise_sortDesc {α : Type} (key : α → ℚ) (l : List α) :
    List.Pairwise (fun a b => key b ≤ key a) (sortDesc key l) := by
  induction l with
  | nil => simp [sortDesc]
  | cons x xs ih => exact pairwise_insertDesc key x _ ih

/-- C8 counterexample: two chunks with equal scores for the query are not
returned in ascending chunk_id order: Python's stable sort keeps the
keyword-index insertion order, so "b" (indexed first) precedes "a". -/
theorem keywordSearch_ties_not_by_chunk_id :
    keywordSearch tieState "shared" 5 = [("b", 1/2), ("a", 1/2)]
      ∧ keywordSearch tieState "shared" 5 ≠ [("a", 1/2), ("b", 1/2)] := by
  decide

/-- Every pair returned by keywordSearch carries a strictly positive score
equal to the kwScore of an indexed posting under its chunk_id. -/
theorem keywordSearch_mem_elim (st : RetrieverState) (query : String) (k : Nat)
    (p : String × ℚ) (hp : p ∈ keywordSearch st query k) :
    0 < p.2 ∧ ∃ posting : Posting, (p.1, posting) ∈ st.keywordIndex
      ∧ p.2 = kwScore (pySplit (pyLower query)) posting := by
  unfold keywordSearch at hp
  have hp1 : p ∈ sortDesc (fun e : String × ℚ => e.2)
      ((st.keywordIndex.map
          fun e => (e.1, kwScore (pySplit (pyLower query)) e.2)).filter
        fun e => decide (0 < e.2)) := List.mem_of_mem_take hp
  have hp2 := (mem_sortDesc _ p _).mp hp1
  have hp3 := List.mem_filter.mp hp2
  have hpos : 0 < p.2 := of_decide_eq_true hp3.2
  obtain ⟨e, he, hep⟩ := List.mem_map.mp hp3.1
  obtain ⟨eid, eposting⟩ := e
  refine ⟨hpos, eposting, ?_, ?_⟩
  · have h1 : p.1 = eid := by rw [← hep]
    rw [h1]
    exact he
  · rw [← hep]

/-- C8 amended: _keyword_search returns at most k pairs, in weakly
descending score order (ties are broken by keyword-index insertion order
under Python's stable sort, not by ascending chunk_id), and every returned
pair consists of an indexed chunk_id together with exactly the score
sum over the lowercased whitespace-split query terms of
(term count in chunk) / (chunk term count), the score being strictly
positive. -/
theorem keywordSearch_props (st : RetrieverState) (query : String) (k : Nat) :
    (keywordSearch st query k).length ≤ k
    ∧ List.Pairwise (fun a b : String × ℚ => b.2 ≤ a.2) (keywordSearch st query k)
    ∧ ∀ p ∈ keywordSearch st query k,
        0 < p.2 ∧ ∃ posting : Posting, (p.1, posting) ∈ st.keywordIndex
          ∧ p.2 = kwScore (pySplit (pyLower query)) posting := by
  refine ⟨?_, ?_, fun p hp => keywordSearch_mem_elim st query k p hp⟩
  · unfold keywordSearch
    exact List.length_take_le k _
  · unfold keywordSearch
    exact List.Pairwise.sublist (List.take_sublist k _)
      (pairwise_sortDesc (fun e : String × ℚ => e.2) _)

/-- Witness for the C8 amended theorem at the concrete tie state. -/
theorem keywordSearch_props_witness :
    (keywordSearch tieState "shared" 5).length ≤ 5
      ∧ List.Pairwise (fun a b : String × ℚ => b.2 ≤ a.2)
          (keywordSearch tieState "shared" 5) :=
  ⟨(keywordSearch_props tieState "shared" 5).1,
    (keywordSearch_props tieState "shared" 5).2.1⟩

/-- The vector pass only looks at the ids of its ranked list. -/
theorem rrfVectorPass_eq_rrfPass (w : ℚ) (items : List (Document × ℚ)) :
    ∀ (rank : Nat) (m : List (String × ℚ)),
      rrfVectorPass w items rank m
        = rrfPass w (items.map fun e => docKey e.1) rank m := by
  induction items with
  | nil => intro rank m; rfl
  | cons e rest ih =>
      intro rank m
      obtain ⟨d, s⟩ := e
      simp only [rrfVectorPass, List.map, rrfPass]
      exact ih (rank + 1) _

/-- The keyword pass only looks at the ids of its ranked list. -/
theorem rrfKeywordPass_eq_rrfPass (w : ℚ) (items : List (String × ℚ)) :
    ∀ (rank : Nat) (m : List (String × ℚ)),
      rrfKeywordPass w items rank m
        = rrfPass w (items.map fun e => e.1) rank m := by
  induction items with
  | nil => intro rank m; rfl
  | cons e rest ih =>
      intro rank m
      obtain ⟨docId, s⟩ := e
      simp only [rrfKeywordPass, List.map, rrfPass]
      exact ih (rank + 1) _

/-- Reading the score dict after a bump. -/
theorem lookupA_bumpScore (m : List (String × ℚ)) (key key' : String) (v : ℚ) :
    lookupA (bumpScore m key v) key'
      = if key' = key then some ((lookupA m key).getD 0 + v)
        else lookupA m key' := by
  unfold bumpScore
  rw [lookupA_updateA]

/-- An id absent from the list has no rank. -/
theorem findRank_eq_none_of_not_mem (ids : List String) (id : String)
    (h : id ∉ ids) : findRank ids id = none := by
  induction ids with
  | nil => rfl
  | cons x xs ih =>
      simp only [List.mem_cons, not_or] at h
      simp only [findRank, if_neg fun hh : x = id => h.1 hh.symm, ih h.2,
        Option.map_none']

/-- Reading the score dict after a whole pass over a duplicate-free ranked
id list: an id ranked at offset i from the pass's starting rank gains
w / (60 + (rank + i)) on top of its previous score, every other id is
untouched. -/
theorem lookupA_rrfPass (w : ℚ) (ids : List String) :
    ∀ (rank : Nat) (m : List (String × ℚ)) (id : String), ids.Nodup →
      lookupA (rrfPass w ids rank m) id
        = match findRank ids id with
          | some i => some ((lookupA m id).getD 0 + w / (60 + ((rank + i : Nat) : ℚ)))
          | none => lookupA m id := by
  induction ids with
  | nil => intro rank m id _; rfl
  | cons x xs ih =>
      intro rank m id hnd
      rw [List.nodup_cons] at hnd
      obtain ⟨hx, hxs⟩ := hnd
      simp only [rrfPass]
      rw [ih (rank + 1) _ id hxs]
      by_cases h : x = id
      · subst h
        rw [findRank_eq_none_of_not_mem xs x hx]
        simp only [findRank, if_pos rfl]
        rw [lookupA_bumpScore, if_pos rfl]
        norm_num
      · simp only [findRank, if_neg h]
        rw [lookupA_bumpScore, if_neg fun hh : id = x => h hh.symm]
        cases hfr : findRank xs id with
        | none => simp only [Option.map_none']
        | some i =>
            simp only [Option.map_some']
            have harith : rank + 1 + i = rank + (i + 1) := by omega
            rw [harith]

/-- C5 corrected: the fused score of every chunk_id present in the rrf_scores
dict is exactly the sum over the sources whose (duplicate-free) ranked list
contains it of source_weight / (60 + r), r its 1-based rank there - as the
claim states - and the fused list is ordered by weakly descending total
score; but ties are broken by dict insertion order (vector hits first, then
keyword hits) under Python's stable sort, not by ascending chunk_id. -/
theorem rrf_fused_scores_and_order
    (vectorResults : List (Document × ℚ)) (keywordResults : List (String × ℚ))
    (vectorWeight keywordWeight : ℚ)
    (hv : (vectorResults.map fun e => docKey e.1).Nodup)
    (hk : (keywordResults.map fun e => e.1).Nodup) :
    (∀ id s,
      lookupA (rrfScores vectorResults keywordResults vectorWeight keywordWeight) id
          = some s →
        s = rrfContribution vectorWeight (vectorResults.map fun e => docKey e.1) id
            + rrfContribution keywordWeight (keywordResults.map fun e => e.1) id)
    ∧ List.Pairwise (fun a b : String × ℚ => b.2 ≤ a.2)
        (sortDesc (fun e : String × ℚ => e.2)
          (rrfScores vectorResults keywordResults vectorWeight keywordWeight)) := by
  constructor
  · intro id s hs
    unfold rrfScores at hs
    rw [rrfKeywordPass_eq_rrfPass, rrfVectorPass_eq_rrfPass] at hs
    rw [lookupA_rrfPass keywordWeight _ 1 _ id hk] at hs
    rw [lookupA_rrfPass vectorWeight _ 1 _ id hv] at hs
    unfold rrfContribution
    cases hfrk : findRank (keywordResults.map fun e => e.1) id with
    | none =>
        cases hfrv : findRank (vectorResults.map fun e => docKey e.1) id with
        | none =>
            rw [hfrk, hfrv] at hs
            simp only [lookupA] at hs
            exact Option.noConfusion hs
        | some i =>
            rw [hfrk, hfrv] at hs
            simp only [lookupA, Option.getD_none, Option.some.injEq] at hs
            subst hs
            norm_num
    | some j =>
        cases hfrv : findRank (vectorResults.map fun e => docKey e.1) id with
        | none =>
            rw [hfrk, hfrv] at hs
            simp only [lookupA, Option.getD_none, Option.some.injEq] at hs
            subst hs
            norm_num
        | some i =>
            rw [hfrk, hfrv] at hs
            simp only [lookupA, Option.getD_none, Option.getD_some,
              Option.some.injEq] at hs
            subst hs
            norm_num
  · exact pairwise_sortDesc (fun e : String × ℚ => e.2) _

/-- C5 counterexample: with equal weights, vector list ["b"] and keyword
list ["a"] produce the identical fused score w / 61 for both ids, and the
fused output is [docB, docA] - insertion order (vector pass first), not the
ascending chunk_id order [docA, docB] the claim requires for ties. -/
theorem rrf_tie_not_broken_by_chunk_id :
    reciprocalRankFusion fusionState [(fusionDocB, 9/10)] [("a", 1/2)] 5
        (1/2) (1/2) = [fusionDocB, fusionDocA]
      ∧ reciprocalRankFusion fusionState [(fusionDocB, 9/10)] [("a", 1/2)] 5
          (1/2) (1/2) ≠ [fusionDocA, fusionDocB] := by
  decide

/-- Witness for the C5 corrected theorem at the concrete tied fusion
inputs. -/
theorem rrf_fused_scores_witness :
    List.Pairwise (fun a b : String × ℚ => b.2 ≤ a.2)
      (sortDesc (fun e : String × ℚ => e.2)
        (rrfScores [(fusionDocB, 9/10)] [("a", 1/2)] (1/2) (1/2))) :=
  (rrf_fused_scores_and_order [(fusionDocB, 9/10)] [("a", 1/2)] (1/2) (1/2)
    (by decide) (by decide)).2

/-- updateA preserves every present key. -/
theorem hasKey_updateA_of {α : Type} (m : List (String × α)) (k id : String)
    (v : α) (h : hasKey m id = true) : hasKey (updateA m k v) id = true := by
  unfold hasKey at h ⊢
  rw [lookupA_updateA]
  by_cases hik : id = k
  · simp [hik]
  · rw [if_neg hik]
    exact h

/-- updateA always makes its own key present. -/
theorem hasKey_updateA_self {α : Type} (m : List (String × α)) (k : String)
    (v : α) : hasKey (updateA m k v) k = true := by
  unfold hasKey
  rw [lookupA_updateA, if_pos rfl]
  rfl

/-- A key present in an appended list is present on one of the two sides. -/
theorem hasKey_append {α : Type} (m l : List (String × α)) (id : String)
    (h : hasKey (m ++ l) id = true) :
    hasKey m id = true ∨ hasKey l id = true := by
  unfold hasKey at h ⊢
  rw [lookupA_append] at h
  cases hm : lookupA m id with
  | some v => exact Or.inl rfl
  | none =>
      rw [hm] at h
      exact Or.inr h

/-- The only key of a singleton association list. -/
theorem hasKey_singleton {α : Type} (k id : String) (v : α)
    (h : hasKey [(k, v)] id = true) : id = k := by
  unfold hasKey lookupA at h
  by_cases hk : k = id
  · exact hk.symm
  · rw [if_neg hk] at h
    simp [lookupA] at h

/-- A pair contained in an association list makes its key present. -/
theorem hasKey_of_mem {α : Type} (m : List (String × α)) (k : String) (v : α)
    (h : (k, v) ∈ m) : hasKey m k = true := by
  induction m with
  | nil => cases h
  | cons e rest ih =>
      obtain ⟨a, b⟩ := e
      rcases List.mem_cons.mp h with heq | h'
      · cases heq
        simp [hasKey, lookupA]
      · unfold hasKey
        simp only [lookupA]
        by_cases ha : a = k
        · simp [ha]
        · rw [if_neg ha]
          exact ih h'

/-- The keyword index after addDocument when the key was absent. -/
theorem addDocument_keywordIndex_of_not_hasKey (st : RetrieverState)
    (c : Document) (h : hasKey st.keywordIndex (docKey c) = false) :
    (addDocument st c).keywordIndex
      = st.keywordIndex ++ [(docKey c, docPosting c)] := by
  simp [addDocument, h]

/-- addDocument preserves the cross-dict invariant: the document map always
receives the key, the keyword index receives it at most. -/
theorem indexSubset_addDocument (st : RetrieverState) (c : Document)
    (h : IndexSubsetDocMap st) : IndexSubsetDocMap (addDocument st c) := by
  intro id hid
  rw [addDocument_documentMap]
  by_cases hk : hasKey st.keywordIndex (docKey c) = true
  · rw [addDocument_keywordIndex_of_hasKey st c hk] at hid
    exact hasKey_updateA_of _ _ _ _ (h id hid)
  · rw [addDocument_keywordIndex_of_not_hasKey st c
      (by simpa using hk)] at hid
    rcases hasKey_append _ _ _ hid with h1 | h1
    · exact hasKey_updateA_of _ _ _ _ (h id h1)
    · rw [hasKey_singleton _ _ _ h1]
      exact hasKey_updateA_self _ _ _

/-- addDocuments preserves the cross-dict invariant. -/
theorem indexSubset_addDocuments (docs : List Document) :
    ∀ st : RetrieverState, IndexSubsetDocMap st →
      IndexSubsetDocMap (addDocuments st docs) := by
  induction docs with
  | nil => intro st h; exact h
  | cons c rest ih =>
      intro st h
      exact ih (addDocument st c) (indexSubset_addDocument st c h)

/-- Any operation sequence started from an invariant state stays
invariant. -/
theorem indexSubset_foldl (ops : List RetrieverOp) :
    ∀ st : RetrieverState, IndexSubsetDocMap st →
      IndexSubsetDocMap (ops.foldl applyOp st) := by
  induction ops with
  | nil => intro st h; exact h
  | cons op rest ih =>
      intro st h
      cases op with
      | add docs => exact ih _ (indexSubset_addDocuments docs st h)
      | query q k => exact ih _ h

/-- The freshly constructed retriever is trivially invariant. -/
theorem indexSubset_empty : IndexSubsetDocMap emptyRetriever := by
  intro id hid
  simp [hasKey, lookupA, emptyRetriever] at hid

/-- C10: after any sequence of add_documents and retrieve calls on a fresh
HybridRetriever, every key of the keyword index is a key of the document
map (add_documents always stores the document and only conditionally
creates the posting; retrieve mutates nothing; nothing removes document-map
entries), and consequently every candidate produced by keyword search
resolves in the document map, so the document-resolution step of
_reciprocal_rank_fusion never silently drops a keyword candidate. -/
theorem keywordIndex_keys_resolve_in_documentMap (ops : List RetrieverOp) :
    (∀ id : String, hasKey (runOps ops).keywordIndex id = true →
        hasKey (runOps ops).documentMap id = true)
    ∧ ∀ (q : String) (k : Nat) (p : String × ℚ),
        p ∈ keywordSearch (runOps ops) q k →
        lookupA (runOps ops).documentMap p.1 ≠ none := by
  have hinv : IndexSubsetDocMap (runOps ops) :=
    indexSubset_foldl ops emptyRetriever indexSubset_empty
  refine ⟨hinv, ?_⟩
  intro q k p hp
  obtain ⟨_, posting, hmem, _⟩ := keywordSearch_mem_elim (runOps ops) q k p hp
  have h1 := hasKey_of_mem _ _ _ hmem
  have h2 := hinv p.1 h1
  unfold hasKey at h2
  intro hnone
  rw [hnone] at h2
  exact Bool.noConfusion h2

/-- Witness for C10: one add operation, one matching keyword candidate, the
candidate's id resolves in the document map. -/
theorem keywordIndex_keys_resolve_witness :
    lookupA (runOps [RetrieverOp.add [chunkDocA]]).documentMap "doc1_chunk_0"
      ≠ none :=
  (keywordIndex_keys_resolve_in_documentMap [RetrieverOp.add [chunkDocA]]).2
    "login" 5 ("doc1_chunk_0", 1/2) (by decide)

end ReqPlatform
